import Mathlib

/-!
Verification of the capital-ledger and orchestrator logic of the
spot-future-arbitrage repository.

Shallow embedding conventions:
* Python `Decimal` values are modelled as exact rationals (`ℚ`); every
  arithmetic operation appearing in the claims is exact at the inputs used.
* Python `dict` (`collateral_freeze: Dict[UUID, Decimal]`) is modelled as an
  association list with unique keys; `UUID` is modelled as `Nat`.
* Fallible operations (a `Decimal` division that raises on a zero divisor)
  return `Option`.
* `async with self.lock` bodies are modelled as atomic pure state
  transformers, per the single-threaded cooperative scheduling of the
  orchestrator.
-/

namespace SpotFutureArb

/-- `FtxLeverageInfo` from `ftx_data_type`, with all-zero defaults. -/
structure FtxLeverageInfo where
  max_leverage : ℚ := 0
  account_value : ℚ := 0
  position_value : ℚ := 0
  current_leverage : ℚ := 0
  deriving Repr, DecidableEq

/-- `FtxFundRequestMessage`: a worker's allocation request. -/
structure FtxFundRequestMessage where
  id : Nat
  fund_needed : ℚ
  spot_notional_value : ℚ
  deriving Repr, DecidableEq

/-- `FtxFundResponseMessage`: the orchestrator's reply to a fund request. -/
structure FtxFundResponseMessage where
  id : Nat
  approve : Bool
  fund_supply : ℚ
  borrow : ℚ
  deriving Repr, DecidableEq

/-- `FtxFundOpenFilledMessage`: settlement notice for a granted freeze. -/
structure FtxFundOpenFilledMessage where
  id : Nat
  fund_used : ℚ
  deriving Repr, DecidableEq

/-- Association-list lookup with a default, modelling Python
`dict.get(key, default)`. -/
def dictGet (d : List (Nat × ℚ)) (k : Nat) (default : ℚ) : ℚ :=
  match d.find? (fun p => p.1 == k) with
  | some p => p.2
  | none => default

/-- Membership test, modelling Python `key in dict`. -/
def dictHasKey (d : List (Nat × ℚ)) (k : Nat) : Bool :=
  d.any (fun p => p.1 == k)

/-- Association-list assignment, modelling Python `dict[key] = value`:
replaces the value when the key is present, appends otherwise. -/
def dictSet (d : List (Nat × ℚ)) (k : Nat) (v : ℚ) : List (Nat × ℚ) :=
  if dictHasKey d k then
    d.map (fun p => if p.1 == k then (k, v) else p)
  else
    d ++ [(k, v)]

/-- Sum of all values in the dict, modelling `sum(dict.values())` /
iteration over `dict.values()`. -/
def dictValuesSum (d : List (Nat × ℚ)) : ℚ :=
  (d.map Prod.snd).sum

/-- The `FundManager` dataclass state (`src/script/fund_manager.py`). -/
structure FundManager where
  leverage_limit : Option ℚ := none
  free_collateral : ℚ := 0
  free_usd : ℚ := 0
  borrowed_usd : ℚ := 0
  collateral_freeze : List (Nat × ℚ) := []
  leverage_info : FtxLeverageInfo := {}
  deriving Repr, DecidableEq

/-- `FundManager.update_account_state` (lines 20-32).  Computes
`current_leverage = position_value / account_value` (raising on a zero
account value, hence `Option`), then atomically replaces `free_collateral`
with the reported free collateral minus every active freeze, clamped at
zero once at the end of the loop, and stores the new leverage snapshot. -/
def update_account_state (m : FundManager) (free_collateral max_leverage
    account_value position_value : ℚ) : Option FundManager :=
  if account_value = 0 then none
  else
    let current_leverage := position_value / account_value
    let leverage_info : FtxLeverageInfo :=
      ⟨max_leverage, account_value, position_value, current_leverage⟩
    some { m with
      free_collateral :=
        max 0 (free_collateral - dictValuesSum m.collateral_freeze),
      leverage_info := leverage_info }

/-- `FundManager.update_usd_state` (lines 34-37): plain field replacement. -/
def update_usd_state (m : FundManager) (free_usd spot_borrow : ℚ) :
    FundManager :=
  { m with free_usd := free_usd, borrowed_usd := spot_borrow }

/-- `FundManager._get_free_collateral_with_leverage_limit` (lines 80-82). -/
def get_free_collateral_with_leverage_limit (m : FundManager) (limit : ℚ) :
    ℚ :=
  let available_collateral :=
    (limit * m.leverage_info.account_value - m.leverage_info.position_value)
      / (limit - 1)
  max 0 (min available_collateral m.free_collateral)

/-- The available collateral computed at the top of `request_for_open`
(lines 41-44): the leverage-limited value when a limit is configured
(raising on `limit = 1`, a zero divisor), else `free_collateral`. -/
def availableCollateral (m : FundManager) : Option ℚ :=
  match m.leverage_limit with
  | some limit =>
      if limit = 1 then none
      else some (get_free_collateral_with_leverage_limit m limit)
  | none => some m.free_collateral

/-- Body of `request_for_open` after the available collateral has been
computed (lines 45-78): deny without mutation when it is non-positive,
otherwise grant `fund_needed` when strictly below the available amount
(partial-pool branch) or the whole available amount (exhaustion branch),
recording the freeze, updating collateral and the USD fields, and building
the response. -/
def request_for_open_core (m : FundManager) (request : FtxFundRequestMessage)
    (collateral : ℚ) : FundManager × FtxFundResponseMessage :=
  if collateral ≤ 0 then
    (m, ⟨request.id, false, 0, 0⟩)
  else if request.fund_needed < collateral then
    let fund_supply := request.fund_needed
    let borrow := max 0 (request.spot_notional_value - m.free_usd)
    ({ m with
        collateral_freeze := dictSet m.collateral_freeze request.id fund_supply,
        free_collateral := m.free_collateral - fund_supply,
        borrowed_usd := m.borrowed_usd + borrow,
        free_usd := max 0 (m.free_usd - fund_supply) },
     ⟨request.id, true, fund_supply, borrow⟩)
  else
    let fund_supply := collateral
    let borrow := max 0 (request.spot_notional_value - m.free_usd)
    ({ m with
        collateral_freeze := dictSet m.collateral_freeze request.id fund_supply,
        free_collateral := 0,
        borrowed_usd := m.borrowed_usd + borrow,
        free_usd := max 0 (m.free_usd - fund_supply) },
     ⟨request.id, true, fund_supply, fund_supply⟩)

/-- `FundManager.request_for_open` (lines 39-78). -/
def request_for_open (m : FundManager) (request : FtxFundRequestMessage) :
    Option (FundManager × FtxFundResponseMessage) :=
  (availableCollateral m).map (request_for_open_core m request)

/-- `FundManager.handle_open_order_filled` (lines 84-91): releases the
frozen amount (defaulting to zero) back into `free_collateral`, then
subtracts `fund_used`.  The source neither clamps the result nor removes
the `collateral_freeze` entry. -/
def handle_open_order_filled (m : FundManager)
    (msg : FtxFundOpenFilledMessage) : FundManager :=
  let freeze_amount := dictGet m.collateral_freeze msg.id 0
  { m with free_collateral := m.free_collateral + freeze_amount - msg.fund_used }

/-- One call to a ledger operation, for reasoning about call sequences. -/
inductive LedgerOp where
  | refreshAccount (free_collateral max_leverage account_value position_value : ℚ)
  | refreshUsd (free_usd spot_borrow : ℚ)
  | allocate (request : FtxFundRequestMessage)
  | settleFill (msg : FtxFundOpenFilledMessage)
  deriving Repr, DecidableEq

/-- Apply one ledger operation to the shared state. -/
def applyOp (m : FundManager) : LedgerOp → Option FundManager
  | .refreshAccount fc ml av pv => update_account_state m fc ml av pv
  | .refreshUsd fu sb => some (update_usd_state m fu sb)
  | .allocate req => (request_for_open m req).map Prod.fst
  | .settleFill msg => some (handle_open_order_filled m msg)

/-- Run a sequence of ledger operations from a given state. -/
def runOps (m : FundManager) : List LedgerOp → Option FundManager
  | [] => some m
  | op :: ops => (applyOp m op).bind (fun m2 => runOps m2 ops)

/-! ### The orchestrator's listen loop (`MainProcess._listen_sub_process_msg`)

The loop dispatches each inbound message by runtime type (lines 655-665 of
`src/script/main_process.py`).  A `FtxFundRequestMessage` is dispatched by
looking up the attribute named `request_for_budget` on the fund manager;
Python attribute lookup succeeds only for names the `FundManager` class
actually defines, and a lookup failure (AttributeError) is caught by the
surrounding `except Exception` handler, which logs and continues without
mutating the ledger or sending a reply. -/

/-- The method names the `FundManager` class defines
(`src/script/fund_manager.py`). -/
def fundManagerMethodNames : List String :=
  ["update_account_state", "update_usd_state", "request_for_open",
   "_get_free_collateral_with_leverage_limit", "handle_open_order_filled"]

/-- The attribute name the listen loop dispatches a fund request to
(`main_process.py` line 656: `self.fund_manager.request_for_budget(msg)`). -/
def fundRequestDispatchName : String := "request_for_budget"

/-- Python attribute lookup on a `FundManager` instance: returns the name
when the class defines it, `none` (AttributeError) otherwise. -/
def fundManagerGetattr (name : String) : Option String :=
  if fundManagerMethodNames.contains name then some name else none

/-- Inbound messages handled by the listen loop. -/
inductive SubProcessMessage where
  | fundRequest (msg : FtxFundRequestMessage)
  | openFilled (msg : FtxFundOpenFilledMessage)
  | entryPriceResponse (market : Nat) (entry_price : ℚ)
  deriving Repr, DecidableEq

/-- Outcome of dispatching one inbound message: the ledger state after the
handler ran, the response written back on the worker's channel (if any),
and whether the per-message `except Exception` handler fired. -/
structure DispatchResult where
  ledger : FundManager
  sent : Option FtxFundResponseMessage
  errored : Bool
  deriving Repr, DecidableEq

/-- One iteration of `MainProcess._listen_sub_process_msg` (lines 649-675)
on a received message.  A fund request first resolves the dispatched
attribute name on the fund manager; when resolution fails or the resolved
handler is not the allocation operation, the AttributeError (or the
handler's own exception) lands in the `except` branch: logged, no state
change, no reply. -/
def listenDispatch (m : FundManager) : SubProcessMessage → DispatchResult
  | .fundRequest req =>
      match fundManagerGetattr fundRequestDispatchName with
      | some n =>
          if n = "request_for_open" then
            match request_for_open m req with
            | some (m2, resp) => ⟨m2, some resp, false⟩
            | none => ⟨m, none, true⟩
          else ⟨m, none, true⟩
      | none => ⟨m, none, true⟩
  | .openFilled msg => ⟨handle_open_order_filled m msg, none, false⟩
  | .entryPriceResponse _ _ => ⟨m, none, false⟩

/-! ### The leverage rebalancer's deposit path
(`MainProcess._apply_funding_service`, lines 943-1040, and
`MainProcess._get_last_24h_net_deposit`, lines 1129-1174). -/

/-- The funding-service configuration fields the deposit path reads. -/
structure FundingServiceConfig where
  target_leverage : ℚ
  leverage_upper_bound : ℚ
  daily_max_net_deposit : ℚ
  min_deposit_amount : ℚ
  deriving Repr, DecidableEq

/-- `MainProcess._get_last_24h_net_deposit` net-deposit accumulation
(lines 1163-1174): over the cached 24-hour deposit and withdraw histories
(`(coin, size)` records), add USD-family deposit sizes, subtract
USD-family withdraw sizes, and clamp the result at zero. -/
def get_last_24h_net_deposit (deposit_history withdraw_history :
    List (String × ℚ)) : ℚ :=
  let isUsd : String × ℚ → Bool :=
    fun h => ["USD", "USDC", "BUSD"].contains h.1
  let net :=
    ((deposit_history.filter isUsd).map Prod.snd).sum
      - ((withdraw_history.filter isUsd).map Prod.snd).sum
  max 0 net

/-- The deposit branch of `MainProcess._apply_funding_service`
(lines 961-998), as a function from the values it reads to the deposit
amount it submits (`none` when the branch skips without submitting):
when current leverage exceeds the upper bound, skip if the remaining
24-hour quota (`daily_max_net_deposit − net_deposit`) is below the minimum
deposit amount, skip if the funding-account USD balance is below that
minimum, otherwise size the deposit as
`(position − target_leverage·account_value) / (target_leverage + 1)`
capped by the funding-account balance, and submit it only when it strictly
exceeds the minimum deposit amount. -/
def apply_funding_service_deposit (cfg : FundingServiceConfig)
    (current_leverage position account_value
     funding_account_usd_balance net_deposit : ℚ) : Option ℚ :=
  if current_leverage > cfg.leverage_upper_bound then
    let quote_for_deposit := cfg.daily_max_net_deposit - net_deposit
    if quote_for_deposit < cfg.min_deposit_amount then none
    else if funding_account_usd_balance < cfg.min_deposit_amount then none
    else
      let deposit_amount :=
        (position - cfg.target_leverage * account_value)
          / (cfg.target_leverage + 1)
      let deposit_amount := min deposit_amount funding_account_usd_balance
      if deposit_amount > cfg.min_deposit_amount then some deposit_amount
      else none
  else none

/-! ## Helper lemmas about the dict model -/

theorem dictHasKey_of_mem {d : List (Nat × ℚ)} {k : Nat} {v : ℚ}
    (h : (k, v) ∈ d) : dictHasKey d k = true := by
  unfold dictHasKey
  exact List.any_eq_true.mpr ⟨(k, v), h, by simp⟩

theorem find?_replace (d : List (Nat × ℚ)) (k : Nat) (w : ℚ) :
    List.find? (fun p => p.1 == k)
        (d.map (fun p => if p.1 == k then (k, w) else p))
      = if dictHasKey d k then some (k, w) else none := by
  induction d with
  | nil => simp [dictHasKey]
  | cons a t ih =>
    rw [List.map_cons]
    by_cases hk : a.1 = k
    · have hbeq : (a.1 == k) = true := by simp [hk]
      rw [show (if a.1 == k then (k, w) else a) = (k, w) from by simp [hbeq],
        List.find?_cons_of_pos _ (by simp),
        if_pos (show dictHasKey (a :: t) k = true by
          simp [dictHasKey, List.any_cons, hbeq])]
    · have hbeq : (a.1 == k) = false := by simp [hk]
      rw [show (if a.1 == k then (k, w) else a) = a from by simp [hbeq]]
      rw [List.find?_cons_of_neg _ (by simp [hbeq]), ih]
      have : dictHasKey (a :: t) k = dictHasKey t k := by
        simp [dictHasKey, List.any_cons, hbeq]
      rw [this]

theorem dictGet_dictSet_same (d : List (Nat × ℚ)) (k : Nat) (w : ℚ) :
    dictGet (dictSet d k w) k 0 = w := by
  unfold dictGet dictSet
  by_cases h : dictHasKey d k
  · rw [if_pos h, find?_replace, if_pos h]
  · rw [if_neg h, List.find?_append]
    have h1 : List.find? (fun p => p.1 == k) d = none := by
      rw [List.find?_eq_none]
      intro x hx hpx
      exact h (List.any_eq_true.mpr ⟨x, hx, hpx⟩)
    rw [h1]
    simp [List.find?]

theorem replace_eq_self (t : List (Nat × ℚ)) (k : Nat) (w : ℚ)
    (h : k ∉ t.map Prod.fst) :
    t.map (fun p => if p.1 == k then (k, w) else p) = t := by
  induction t with
  | nil => rfl
  | cons a t ih =>
    rw [List.map_cons, List.mem_cons] at h
    push_neg at h
    have hbeq : (a.1 == k) = false := by
      simp
      exact fun he => h.1 he.symm
    rw [List.map_cons,
      show (if a.1 == k then (k, w) else a) = a from by simp [hbeq],
      ih h.2]

theorem dictValuesSum_dictSet_mem (d : List (Nat × ℚ)) (k : Nat) (v w : ℚ)
    (hmem : (k, v) ∈ d) (hnd : (d.map Prod.fst).Nodup) :
    dictValuesSum (dictSet d k w) = dictValuesSum d - v + w := by
  unfold dictSet
  rw [if_pos (dictHasKey_of_mem hmem)]
  induction d with
  | nil => cases hmem
  | cons a t ih =>
    rw [List.map_cons, List.nodup_cons] at hnd
    rcases List.mem_cons.mp hmem with heq | hmt
    · have hbeq : (a.1 == k) = true := by simp [← heq]
      have hkt : k ∉ t.map Prod.fst := by
        rw [show k = a.1 from by rw [← heq]]
        exact hnd.1
      rw [List.map_cons,
        show (if a.1 == k then (k, w) else a) = (k, w) from by simp [hbeq],
        replace_eq_self t k w hkt]
      have hv : a.2 = v := by rw [← heq]
      unfold dictValuesSum
      rw [List.map_cons, List.map_cons, List.sum_cons, List.sum_cons, hv]
      ring
    · have hk_in : k ∈ t.map Prod.fst := List.mem_map.mpr ⟨(k, v), hmt, rfl⟩
      have hbeq : (a.1 == k) = false := by
        simp
        exact fun he => hnd.1 (he ▸ hk_in)
      rw [List.map_cons,
        show (if a.1 == k then (k, w) else a) = a from by simp [hbeq]]
      unfold dictValuesSum
      rw [List.map_cons, List.map_cons, List.sum_cons, List.sum_cons]
      have := ih hmt hnd.2
      unfold dictValuesSum at this
      rw [this]
      ring

/-! ## Theorems about the claims -/

/-- C1: The claim says the listen loop answers every `FundRequest` by
calling the ledger's allocation operation `request_for_open` and sending
the resulting `FundResponse` back on the same channel.  In the source the
dispatch site names the attribute `request_for_budget`, which the
`FundManager` class does not define, so every fund request raises
`AttributeError`, which the loop's `except` handler swallows: the
allocation operation is never called, no response is ever sent, and the
ledger is left untouched. -/
theorem fundRequest_dispatch_attribute_missing :
    fundManagerGetattr fundRequestDispatchName = none
    ∧ ∀ (m : FundManager) (req : FtxFundRequestMessage),
        listenDispatch m (.fundRequest req) = ⟨m, none, true⟩ := by
  constructor
  · rfl
  · intro m req
    rfl

/-- C2: The claim says `handle_open_order_filled` releases the frozen
amount, subtracts `fund_used`, and removes the `collateral_freeze` entry.
On the state `{free_collateral = 60, collateral_freeze = {0 ↦ 40}}` and
the notice `{id = 0, fund_used = 30}`, the source does produce
`free_collateral = 60 + 40 − 30 = 70`, but the entry for id 0 is still in
the map (with its original amount 40) after the call: there is no removal
in the source. -/
theorem settleFill_keeps_freeze_entry :
    (handle_open_order_filled ⟨none, 60, 0, 0, [(0, 40)], {}⟩
        ⟨0, 30⟩).free_collateral = 70
    ∧ dictHasKey (handle_open_order_filled ⟨none, 60, 0, 0, [(0, 40)], {}⟩
        ⟨0, 30⟩).collateral_freeze 0 = true
    ∧ dictGet (handle_open_order_filled ⟨none, 60, 0, 0, [(0, 40)], {}⟩
        ⟨0, 30⟩).collateral_freeze 0 0 = 40 := by
  refine ⟨?_, ?_, ?_⟩ <;>
    norm_num [handle_open_order_filled, dictGet, dictHasKey, List.find?]

/-- C3: The claim says `freeCollateral + Σ collateralFreeze.values()`
never exceeds the free collateral supplied to the most recent
`update_account_state`.  Running, from the initial state, the sequence
`update_account_state` (reported free collateral 100), an approved
`request_for_open` for 40, then `handle_open_order_filled` with
`fund_used = 30`, leaves `free_collateral = 70` while the freeze entry of
40 is still in the map, so the sum is `110 > 100`. -/
theorem conservation_violated_after_settleFill :
    ∃ s, runOps ({} : FundManager)
        [.refreshAccount 100 10 1000 500, .allocate ⟨0, 40, 0⟩,
         .settleFill ⟨0, 30⟩] = some s
      ∧ s.free_collateral + dictValuesSum s.collateral_freeze = 110
      ∧ (100 : ℚ) < 110 := by
  refine ⟨_, rfl, ?_, by norm_num⟩
  norm_num [handle_open_order_filled, request_for_open_core, dictGet, dictSet,
            dictHasKey, dictValuesSum, List.find?]

/-- C4 counterexample: the claim says `freeCollateral ≥ 0` after every
call because every mutation clamps at zero.  `handle_open_order_filled`
does not clamp: from the initial state (no freeze entry, zero free
collateral), a notice with `fund_used = 1` drives `free_collateral`
to `−1 < 0`. -/
theorem settleFill_negative_free_collateral :
    (handle_open_order_filled ({} : FundManager) ⟨0, 1⟩).free_collateral < 0 := by
  norm_num [handle_open_order_filled, dictGet, List.find?]

/-- C6: when the available collateral computed at the top of
`request_for_open` is non-positive, the request is denied with
`approve = false`, `fund_supply = 0`, `borrow = 0`, and the returned
state is the input state itself: every ledger field is unchanged. -/
theorem request_for_open_denial (m : FundManager)
    (req : FtxFundRequestMessage) (c : ℚ)
    (h : availableCollateral m = some c) (hc : c ≤ 0) :
    request_for_open m req = some (m, ⟨req.id, false, 0, 0⟩) := by
  unfold request_for_open request_for_open_core
  rw [h]
  simp [hc]

/-- Witness for C6: from the initial state (zero free collateral, no
leverage limit) a request for 10 is denied with no state change. -/
theorem request_for_open_denial_witness :
    request_for_open ({} : FundManager) ⟨1, 10, 10⟩
      = some (({} : FundManager), ⟨1, false, 0, 0⟩) :=
  request_for_open_denial ({} : FundManager) ⟨1, 10, 10⟩ 0 rfl (by norm_num)

/-- C7: when the request consumes all available collateral
(`fund_needed ≥ available > 0`), the returned response is
`{approve = true, fund_supply = available, borrow = available}`: the
`borrow` field equals `fund_supply`, whatever `spot_notional_value` the
request carries. -/
theorem request_for_open_full_exhaustion (m : FundManager)
    (req : FtxFundRequestMessage) (c : ℚ)
    (h : availableCollateral m = some c) (hpos : 0 < c)
    (hge : c ≤ req.fund_needed) :
    (request_for_open m req).map (fun p => p.2) = some ⟨req.id, true, c, c⟩ := by
  unfold request_for_open request_for_open_core
  rw [h]
  have h1 : ¬ c ≤ 0 := not_le.mpr hpos
  have h2 : ¬ req.fund_needed < c := not_lt.mpr hge
  simp [h1, h2]

/-- Witness for C7: free collateral 100, request for 150 with a spot
notional of 777; the response is approved with both `fund_supply` and
`borrow` equal to 100. -/
theorem request_for_open_full_exhaustion_witness :
    (request_for_open ⟨none, 100, 0, 0, [], {}⟩ ⟨3, 150, 777⟩).map
        (fun p => p.2) = some ⟨3, true, 100, 100⟩ :=
  request_for_open_full_exhaustion ⟨none, 100, 0, 0, [], {}⟩ ⟨3, 150, 777⟩
    100 rfl (by norm_num) (by norm_num)

/-- C5: with a leverage limit configured, the available collateral equals
`clamp(0, min(freeCollateral, (leverageLimit·accountValue − positionValue)
/ (leverageLimit − 1)))` (stated here with the operands the way the spec
orders them), and whenever it is positive the granted `fund_supply` is
`min(fund_needed, available)`. -/
theorem request_for_open_leverage_clamp (m : FundManager)
    (req : FtxFundRequestMessage) (L : ℚ)
    (hL : m.leverage_limit = some L) (hOne : L ≠ 1)
    (hpos : 0 < get_free_collateral_with_leverage_limit m L) :
    get_free_collateral_with_leverage_limit m L
        = max 0 (min m.free_collateral
            ((L * m.leverage_info.account_value - m.leverage_info.position_value)
              / (L - 1)))
    ∧ (request_for_open m req).map (fun p => p.2.fund_supply)
        = some (min req.fund_needed (get_free_collateral_with_leverage_limit m L)) := by
  constructor
  · unfold get_free_collateral_with_leverage_limit
    rw [min_comm]
  · unfold request_for_open availableCollateral
    rw [hL]
    simp only [hOne, if_false]
    unfold request_for_open_core
    have h1 : ¬ get_free_collateral_with_leverage_limit m L ≤ 0 := not_le.mpr hpos
    by_cases h2 : req.fund_needed < get_free_collateral_with_leverage_limit m L
    · simp [h1, h2, min_eq_left (le_of_lt h2)]
    · simp [h1, h2, min_eq_right (not_lt.mp h2)]

/-- Witness for C5: `leverageLimit = 3, accountValue = 1000,
positionValue = 2500, freeCollateral = 600` give an available collateral
of `(3·1000 − 2500)/(3 − 1) = 250`, and a request for 400 is granted
exactly `fund_supply = 250`. -/
theorem request_for_open_leverage_clamp_witness :
    (request_for_open ⟨some 3, 600, 0, 0, [], ⟨0, 1000, 2500, 0⟩⟩
        ⟨7, 400, 0⟩).map (fun p => p.2.fund_supply) = some 250 := by
  have h := request_for_open_leverage_clamp
    ⟨some 3, 600, 0, 0, [], ⟨0, 1000, 2500, 0⟩⟩ ⟨7, 400, 0⟩ 3 rfl (by norm_num)
    (by norm_num [get_free_collateral_with_leverage_limit])
  rw [h.2]
  norm_num [get_free_collateral_with_leverage_limit]

/-- C9: in the full-exhaustion branch (`fund_needed ≥ available > 0`), the
amount actually added to `borrowed_usd` is
`max(0, spot_notional_value − free_usd)`, while the `borrow` field of the
returned response is `fund_supply` (the available collateral) — two
quantities with no reason to coincide. -/
theorem request_for_open_exhaustion_borrow_mismatch (m : FundManager)
    (req : FtxFundRequestMessage) (c : ℚ)
    (h : availableCollateral m = some c) (hpos : 0 < c)
    (hge : c ≤ req.fund_needed) :
    (request_for_open m req).map (fun p => p.1.borrowed_usd)
        = some (m.borrowed_usd + max 0 (req.spot_notional_value - m.free_usd))
    ∧ (request_for_open m req).map (fun p => p.2.borrow) = some c := by
  unfold request_for_open request_for_open_core
  rw [h]
  have h1 : ¬ c ≤ 0 := not_le.mpr hpos
  have h2 : ¬ req.fund_needed < c := not_lt.mpr hge
  simp [h1, h2]

/-- Witness for C9: free collateral 100, `free_usd = 50`, a request for
150 with spot notional 30: the state's `borrowed_usd` gains
`max(0, 30 − 50) = 0`, while the response reports `borrow = 100` — the
two differ. -/
theorem request_for_open_exhaustion_borrow_mismatch_witness :
    (request_for_open ⟨none, 100, 50, 0, [], {}⟩ ⟨2, 150, 30⟩).map
        (fun p => p.1.borrowed_usd) = some 0
    ∧ (request_for_open ⟨none, 100, 50, 0, [], {}⟩ ⟨2, 150, 30⟩).map
        (fun p => p.2.borrow) = some 100
    ∧ (0 : ℚ) ≠ 100 := by
  have h := request_for_open_exhaustion_borrow_mismatch
    ⟨none, 100, 50, 0, [], {}⟩ ⟨2, 150, 30⟩ 100 rfl (by norm_num) (by norm_num)
  refine ⟨?_, h.2, by norm_num⟩
  rw [h.1]
  norm_num

/-- C8 counterexample: the claim says the computed deposit amount is
capped by the rolling 24-hour net-deposit ceiling.  With
`target_leverage = 2, upper bound = 5/2, daily_max_net_deposit = 500,
min_deposit_amount = 10`, current leverage `16/5`, `position = 3200`,
`account_value = 1000`, a treasury balance of 10000 and a 24-hour net
deposit of 450, the remaining quota is `500 − 450 = 50`, yet the code
submits the uncapped `(3200 − 2·1000)/(2 + 1) = 400`: the quota only
gates the branch, it never caps the amount. -/
theorem funding_deposit_exceeds_daily_quota :
    apply_funding_service_deposit ⟨2, 5/2, 500, 10⟩ (16/5) 3200 1000 10000 450
      = some 400
    ∧ ¬ ((400 : ℚ) ≤ 500 - 450) := by
  constructor
  · norm_num [apply_funding_service_deposit]
  · norm_num

/-- C8 amended: when current leverage exceeds the upper bound, the
remaining 24-hour quota (`daily_max_net_deposit − net_deposit`) is at
least the minimum deposit amount, the treasury balance is at least that
minimum, and the formula amount capped by the treasury balance strictly
exceeds the minimum, the submitted deposit is
`min((position − target_leverage·account_value)/(target_leverage + 1),
treasury balance)` — capped by the treasury balance only. -/
theorem funding_deposit_sizing (cfg : FundingServiceConfig)
    (lev pos av bal nd : ℚ)
    (hlev : cfg.leverage_upper_bound < lev)
    (hquota : cfg.min_deposit_amount ≤ cfg.daily_max_net_deposit - nd)
    (hbal : cfg.min_deposit_amount ≤ bal)
    (hamt : cfg.min_deposit_amount
        < min ((pos - cfg.target_leverage * av) / (cfg.target_leverage + 1)) bal) :
    apply_funding_service_deposit cfg lev pos av bal nd
      = some (min ((pos - cfg.target_leverage * av) / (cfg.target_leverage + 1)) bal) := by
  unfold apply_funding_service_deposit
  rw [if_pos hlev, if_neg (not_lt.mpr hquota), if_neg (not_lt.mpr hbal),
    if_pos hamt]

/-- Witness for C8: target leverage 2, upper bound 5/2, a 24-hour net
deposit of `get_last_24h_net_deposit [("USD", 50)] [("USD", 20)] = 30`
against a daily ceiling of 500, treasury balance 10000, account value
1000, position 3200: the submitted deposit is
`min((3200 − 2·1000)/3, 10000) = 400`, the claim's computed number. -/
theorem funding_deposit_sizing_witness :
    apply_funding_service_deposit ⟨2, 5/2, 500, 10⟩ (16/5) 3200 1000 10000
        (get_last_24h_net_deposit [("USD", 50)] [("USD", 20)]) = some 400 := by
  have h := funding_deposit_sizing ⟨2, 5/2, 500, 10⟩ (16/5) 3200 1000 10000
    (get_last_24h_net_deposit [("USD", 50)] [("USD", 20)])
    (by norm_num) (by norm_num [get_last_24h_net_deposit]) (by norm_num)
    (by norm_num)
  rw [h]
  norm_num

/-- C10: when `request_for_open` approves a request whose id already has a
`collateral_freeze` entry with amount `v`, the dict assignment overwrites
the entry: afterwards the id maps to the new `fund_supply`, and the sum of
all frozen amounts is the old sum minus `v` plus `fund_supply` — the old
amount `v` disappears from freeze tracking. -/
theorem request_for_open_freeze_overwrite (m : FundManager)
    (req : FtxFundRequestMessage) (c v : ℚ)
    (h : availableCollateral m = some c) (hpos : 0 < c)
    (hmem : (req.id, v) ∈ m.collateral_freeze)
    (hnd : (m.collateral_freeze.map Prod.fst).Nodup) :
    ∃ m2 resp, request_for_open m req = some (m2, resp)
      ∧ resp.approve = true
      ∧ dictGet m2.collateral_freeze req.id 0 = resp.fund_supply
      ∧ dictValuesSum m2.collateral_freeze
          = dictValuesSum m.collateral_freeze - v + resp.fund_supply := by
  unfold request_for_open
  rw [h]
  unfold request_for_open_core
  simp only [Option.map_some']
  rw [if_neg (not_le.mpr hpos)]
  by_cases h2 : req.fund_needed < c
  · rw [if_pos h2]
    exact ⟨_, _, rfl, rfl, dictGet_dictSet_same _ _ _,
      dictValuesSum_dictSet_mem _ _ _ _ hmem hnd⟩
  · rw [if_neg h2]
    exact ⟨_, _, rfl, rfl, dictGet_dictSet_same _ _ _,
      dictValuesSum_dictSet_mem _ _ _ _ hmem hnd⟩

/-- Witness for C10: id 4 is already frozen for 30; a new approved request
for 20 under the same id leaves the map holding 20 for id 4, and the
frozen sum moves from 30 to 30 − 30 + 20 = 20. -/
theorem request_for_open_freeze_overwrite_witness :
    ∃ m2 resp,
      request_for_open ⟨none, 100, 0, 0, [(4, 30)], {}⟩ ⟨4, 20, 0⟩
        = some (m2, resp)
      ∧ resp.approve = true
      ∧ dictGet m2.collateral_freeze 4 0 = resp.fund_supply
      ∧ dictValuesSum m2.collateral_freeze
          = dictValuesSum [(4, 30)] - 30 + resp.fund_supply :=
  request_for_open_freeze_overwrite ⟨none, 100, 0, 0, [(4, 30)], {}⟩
    ⟨4, 20, 0⟩ 100 30 rfl (by norm_num) (by simp) (by simp)

/-- Whether one ledger operation is covered by the amended non-negativity
claim: every operation except `handle_open_order_filled` (which does not
clamp), with `update_usd_state` restricted to a non-negative reported
borrow (the source installs the caller's value untouched). -/
def opSafeForNonneg : LedgerOp → Bool
  | .refreshUsd _ spot_borrow => decide (0 ≤ spot_borrow)
  | .settleFill _ => false
  | _ => true

theorem availableCollateral_le_free (m : FundManager) (c : ℚ)
    (h0 : 0 ≤ m.free_collateral) (h : availableCollateral m = some c) :
    c ≤ m.free_collateral := by
  unfold availableCollateral at h
  cases hll : m.leverage_limit with
  | none =>
    rw [hll] at h
    simp only [Option.some.injEq] at h
    rw [← h]
  | some L =>
    rw [hll] at h
    by_cases hL : L = 1
    · simp [hL] at h
    · simp only [hL, if_false, Option.some.injEq] at h
      rw [← h]
      unfold get_free_collateral_with_leverage_limit
      exact max_le h0 (min_le_right _ _)

theorem request_for_open_core_nonneg (m : FundManager)
    (req : FtxFundRequestMessage) (c : ℚ)
    (h0 : 0 ≤ m.free_collateral) (h1 : 0 ≤ m.borrowed_usd)
    (hc : c ≤ m.free_collateral) :
    0 ≤ (request_for_open_core m req c).1.free_collateral
    ∧ 0 ≤ (request_for_open_core m req c).1.borrowed_usd := by
  unfold request_for_open_core
  by_cases hA : c ≤ 0
  · rw [if_pos hA]
    exact ⟨h0, h1⟩
  · rw [if_neg hA]
    by_cases hB : req.fund_needed < c
    · rw [if_pos hB]
      constructor
      · show 0 ≤ m.free_collateral - req.fund_needed
        have := lt_of_lt_of_le hB hc
        linarith
      · show 0 ≤ m.borrowed_usd + max 0 (req.spot_notional_value - m.free_usd)
        have hmax : (0 : ℚ) ≤ max 0 (req.spot_notional_value - m.free_usd) :=
          le_max_left 0 _
        linarith
    · rw [if_neg hB]
      constructor
      · show (0 : ℚ) ≤ 0
        exact le_refl 0
      · show 0 ≤ m.borrowed_usd + max 0 (req.spot_notional_value - m.free_usd)
        have hmax : (0 : ℚ) ≤ max 0 (req.spot_notional_value - m.free_usd) :=
          le_max_left 0 _
        linarith

theorem applyOp_nonneg (m m2 : FundManager) (op : LedgerOp)
    (h0 : 0 ≤ m.free_collateral) (h1 : 0 ≤ m.borrowed_usd)
    (hsafe : opSafeForNonneg op = true)
    (h : applyOp m op = some m2) :
    0 ≤ m2.free_collateral ∧ 0 ≤ m2.borrowed_usd := by
  cases op with
  | refreshAccount fc ml av pv =>
    simp only [applyOp, update_account_state] at h
    by_cases hav : av = 0
    · rw [if_pos hav] at h
      cases h
    · rw [if_neg hav] at h
      simp only [Option.some.injEq] at h
      rw [← h]
      exact ⟨le_max_left 0 _, h1⟩
  | refreshUsd fu sb =>
    simp only [applyOp, update_usd_state] at h
    simp only [Option.some.injEq] at h
    rw [← h]
    simp only [opSafeForNonneg, decide_eq_true_eq] at hsafe
    exact ⟨h0, hsafe⟩
  | allocate req =>
    simp only [applyOp, request_for_open] at h
    cases hav : availableCollateral m with
    | none =>
      rw [hav] at h
      cases h
    | some c =>
      rw [hav] at h
      simp only [Option.map_some', Option.some.injEq] at h
      rw [← h]
      exact request_for_open_core_nonneg m req c h0 h1
        (availableCollateral_le_free m c h0 hav)
  | settleFill msg =>
    simp [opSafeForNonneg] at hsafe

/-- C4 amended: for every sequence of ledger operations that avoids
`handle_open_order_filled` and only feeds `update_usd_state` a
non-negative reported borrow, `freeCollateral ≥ 0` and `borrowedUsd ≥ 0`
hold after every call: `update_account_state` clamps `freeCollateral` at
zero, `request_for_open` preserves both bounds, and `update_usd_state`
installs the given values.  The unamended claim fails because
`handle_open_order_filled` subtracts `fund_used` without clamping and
`update_usd_state` installs `spot_borrow` without clamping. -/
theorem ledger_nonneg_without_settleFill (m : FundManager)
    (ops : List LedgerOp) (m' : FundManager)
    (h0 : 0 ≤ m.free_collateral) (h1 : 0 ≤ m.borrowed_usd)
    (hsafe : ops.all opSafeForNonneg = true)
    (hrun : runOps m ops = some m') :
    0 ≤ m'.free_collateral ∧ 0 ≤ m'.borrowed_usd := by
  induction ops generalizing m with
  | nil =>
    unfold runOps at hrun
    simp only [Option.some.injEq] at hrun
    rw [← hrun]
    exact ⟨h0, h1⟩
  | cons op ops ih =>
    unfold runOps at hrun
    cases hap : applyOp m op with
    | none =>
      rw [hap] at hrun
      cases hrun
    | some m2 =>
      rw [hap] at hrun
      simp only [Option.some_bind] at hrun
      rw [List.all_cons, Bool.and_eq_true] at hsafe
      obtain ⟨g0, g1⟩ := applyOp_nonneg m m2 op h0 h1 hsafe.1 hap
      exact ih m2 g0 g1 hsafe.2 hrun

/-- Witness for the amended C4: an account refresh to 100, an approved
allocation of 40 (with spot notional 20), and a USD refresh with borrow 2
keep both fields non-negative. -/
theorem ledger_nonneg_without_settleFill_witness :
    ∃ m', runOps ({} : FundManager)
        [.refreshAccount 100 10 1000 500, .allocate ⟨0, 40, 20⟩,
         .refreshUsd 5 2] = some m'
      ∧ 0 ≤ m'.free_collateral ∧ 0 ≤ m'.borrowed_usd := by
  obtain ⟨m', hm⟩ : ∃ x, runOps ({} : FundManager)
      [.refreshAccount 100 10 1000 500, .allocate ⟨0, 40, 20⟩,
       .refreshUsd 5 2] = some x := ⟨_, rfl⟩
  exact ⟨m', hm, ledger_nonneg_without_settleFill ({} : FundManager) _ m'
    (by norm_num) (by norm_num)
    (by norm_num [opSafeForNonneg, List.all_cons]) hm⟩

end SpotFutureArb
